import Mathlib

/-!
# Shopping cart of `compras.js`

A shallow embedding of the classes `Product` and `ShoppingCart` of
`src/compras.js`, and theorems about the cart operations, the derived views
and the persistence of the cart in `localStorage`.

Modelling conventions.

* JavaScript numbers used as identifiers and quantities are integers (`Int`),
  and the sums computed on quantities are rounded as JavaScript rounds them
  (`jsAdd`); prices are exact rationals (`ℚ`), so is the total.
* An array is a `List`.  `Array.prototype.find` is `List.find?`, `filter` is
  `List.filter`, `map` is `List.map`, `reduce` with an initial value is
  `List.foldl`, `push` appends at the end.
* Assigning to a field of the object returned by `find` changes the first
  element of the array that satisfies the predicate, in place (`modifyFirst`).
* `localStorage` is reduced to the one slot `shoppingCart` the class uses:
  `none` when the key is absent, `some text` otherwise.
* The page is reduced to a counter of calls of `updateCartUI` (the render
  signal) and a counter of calls of `localStorage.setItem`.
-/

namespace Compras

/-! ## Data model -/

/-- The `images` argument of the `Product` constructor: a single image
reference or an array of them. -/
inductive ImagesArg where
  | single (image : String)
  | many (images : List String)
  deriving Repr, DecidableEq

/-- Class `Product`: the fields set by its constructor. -/
structure Product where
  id : Int
  name : String
  description : String
  price : ℚ
  images : List String
  category : String
  deriving Repr, DecidableEq

/-- The constructor of `Product`:
`this.images = Array.isArray(images) ? images : [images]`. -/
def Product.new (id : Int) (name description : String) (price : ℚ)
    (images : ImagesArg) (category : String) : Product :=
  { id := id
    name := name
    description := description
    price := price
    images := match images with
      | ImagesArg.many l => l
      | ImagesArg.single i => [i]
    category := category }

/-- Getter `mainImage`: `this.images[0]`, which is `undefined` (`none`) on an
empty array. -/
def Product.mainImage (p : Product) : Option String :=
  p.images.head?

/-- The object built by `toSimpleObject`. -/
structure SimpleProduct where
  id : Int
  name : String
  description : String
  price : ℚ
  image : Option String
  category : String
  deriving Repr, DecidableEq

/-- Method `toSimpleObject`. -/
def Product.toSimpleObject (p : Product) : SimpleProduct :=
  { id := p.id
    name := p.name
    description := p.description
    price := p.price
    image := p.mainImage
    category := p.category }

/-- An element of `ShoppingCart.items`: `{ productId, quantity }`. -/
structure CartLine where
  productId : Int
  quantity : Int
  deriving Repr, DecidableEq

/-- An element of the array returned by `getCartItems`. -/
structure CartItem where
  product : SimpleProduct
  quantity : Int
  deriving Repr, DecidableEq

/-- `this.productCatalog.find(p => p.id === productId)`. -/
def findProduct (productCatalog : List Product) (productId : Int) : Option Product :=
  productCatalog.find? (fun p => decide (p.id = productId))

/-- `this.items.find(item => item.productId === productId)`. -/
def findItem (items : List CartLine) (productId : Int) : Option CartLine :=
  items.find? (fun item => decide (item.productId = productId))

/-- The effect on an array of mutating the object that `find` returns: the
first element satisfying `p` is replaced by its image under `f`. -/
def modifyFirst {α : Type} (p : α → Bool) (f : α → α) : List α → List α
  | [] => []
  | x :: xs => if p x then f x :: xs else x :: modifyFirst p f xs


/-! ## Numbers

A quantity is a JavaScript number whose value is an integer, represented by
that integer.  JavaScript numbers are IEEE-754 doubles: the sum computed by
`+` is the exact sum rounded to 53 significant bits, to the nearest such value
and to the one with an even last bit on a tie.  (A sum whose magnitude reaches
`2 ^ 1024` is `Infinity` in JavaScript, which no integer represents; `jsAdd` is
the JavaScript sum below that.)
-/

/-- The number of low bits that a natural number loses when it is written
with 53 significant bits.  The first argument bounds the recursion. -/
def droppedBits : Nat → Nat → Nat
  | 0, _ => 0
  | fuel + 1, m => if m < 2 ^ 53 then 0 else droppedBits fuel (m / 2) + 1

/-- A natural number rounded to 53 significant bits, ties to even. -/
def roundNat (m : Nat) : Nat :=
  if m < 2 ^ 53 then m
  else
    if 2 ^ (droppedBits m m - 1) < m % 2 ^ droppedBits m m ∨
        (m % 2 ^ droppedBits m m = 2 ^ (droppedBits m m - 1) ∧
          (m / 2 ^ droppedBits m m) % 2 = 1) then
      (m / 2 ^ droppedBits m m + 1) * 2 ^ droppedBits m m
    else
      (m / 2 ^ droppedBits m m) * 2 ^ droppedBits m m

/-- The double nearest to an integer. -/
def toDouble (n : Int) : Int :=
  if n < 0 then -(roundNat n.natAbs : Int) else (roundNat n.natAbs : Int)

/-- The sum `a + b` of JavaScript, on integer-valued numbers. -/
def jsAdd (a b : Int) : Int :=
  toDouble (a + b)

/-! ## JSON text

`saveCart` and `loadCart` go through `JSON.stringify` and `JSON.parse`.  The
text they exchange is modelled concretely, as a list of characters.

`jsonStringify` is `JSON.stringify` on the values the cart passes to it, an
array of `{ productId, quantity }` records with integer fields.

`jsonParse` follows `JSON.parse` on a fragment of JSON: the four white-space
characters, `null`, `true`, `false`, strings with the two-character escapes,
integers (an optional `-`, then `0` or a digit string without a leading
zero), arrays and objects.  It has three ways of not returning a value, kept
apart: the text is not JSON (`Failure.syntaxError`, the `SyntaxError` that
`JSON.parse` throws); the text uses a number with a fraction or an exponent,
or a `\u` escape, which the fragment leaves out (`Failure.outsideFragment`:
nothing is said of what `JSON.parse` does); the recursion bound was reached
(`Failure.depthExceeded`).
-/

/-- A JSON value, as returned by `JSON.parse`. -/
inductive Json where
  | null
  | bool (b : Bool)
  | num (n : Int)
  | str (s : String)
  | arr (elems : List Json)
  | obj (members : List (String × Json))

/-- Why `jsonParse` returns no value. -/
inductive Failure where
  /-- The text is not JSON: `JSON.parse` throws a `SyntaxError`. -/
  | syntaxError
  /-- The text uses a construct outside the fragment that is modelled. -/
  | outsideFragment
  /-- The bound on the depth of the recursion was reached. -/
  | depthExceeded
  deriving Repr, DecidableEq

/-- The double quote. -/
def chQuote : Char := Char.ofNat 34

/-- The backslash. -/
def chBackslash : Char := Char.ofNat 92

/-- The opening brace. -/
def chLBrace : Char := Char.ofNat 123

/-- The closing brace. -/
def chRBrace : Char := Char.ofNat 125

/-- JSON white space: space, tab, line feed, carriage return. -/
def isWs (c : Char) : Bool :=
  c.toNat = 32 || c.toNat = 9 || c.toNat = 10 || c.toNat = 13

/-- Drop leading white space. -/
def skipWs : List Char → List Char
  | [] => []
  | c :: cs => if isWs c then skipWs cs else c :: cs

/-- The character denoted by a two-character escape `\e`. -/
def unescape (e : Char) : Option Char :=
  if e = chQuote then some chQuote
  else if e = chBackslash then some chBackslash
  else if e = '/' then some '/'
  else if e = 'b' then some (Char.ofNat 8)
  else if e = 'f' then some (Char.ofNat 12)
  else if e = 'n' then some (Char.ofNat 10)
  else if e = 'r' then some (Char.ofNat 13)
  else if e = 't' then some (Char.ofNat 9)
  else none

/-- Read a string body up to its closing quote.  The flag tells that the
previous character was a backslash; `acc` holds the characters read so far, in
reverse.  A control character, an unknown escape and an unterminated string
are syntax errors; the escape `\u` is outside the fragment. -/
def parseString : List Char → Bool → List Char → Except Failure (String × List Char)
  | [], _, _ => Except.error Failure.syntaxError
  | c :: cs, true, acc =>
    if c = 'u' then Except.error Failure.outsideFragment
    else
      match unescape c with
      | some ch => parseString cs false (ch :: acc)
      | none => Except.error Failure.syntaxError
  | c :: cs, false, acc =>
    if c = chQuote then Except.ok (String.mk acc.reverse, cs)
    else if c = chBackslash then parseString cs true acc
    else if c.toNat < 32 then Except.error Failure.syntaxError
    else parseString cs false (c :: acc)

/-- The decimal digits `0` to `9`. -/
def isDigit (c : Char) : Bool :=
  decide (48 ≤ c.toNat) && decide (c.toNat ≤ 57)

/-- The value of a decimal digit. -/
def digitValue (c : Char) : Nat := c.toNat - 48

/-- Read the longest run of digits, accumulating its decimal value. -/
def readDigits : List Char → Nat → Nat × List Char
  | [], acc => (acc, [])
  | c :: cs, acc =>
    if isDigit c then readDigits cs (acc * 10 + digitValue c) else (acc, c :: cs)

/-- The integer part of a JSON number: `0`, or a digit string that does not
start with `0`. -/
def parseNat : List Char → Option (Nat × List Char)
  | [] => none
  | c :: cs =>
    if c = '0' then some (0, cs)
    else if isDigit c then some (readDigits (c :: cs) 0)
    else none

/-- The characters that continue a number after its integer part: the
decimal point and the exponent marks. -/
def continuesNumber (c : Char) : Bool :=
  decide (c = '.') || decide (c = 'e') || decide (c = 'E')

/-- A JSON number without its sign: the integer part, which must not be
followed by a fraction or an exponent.  The literal is read as the integer it
denotes; JavaScript reads it as the nearest double, which is that integer
whenever the integer is a double, as is every number `saveCart` writes. -/
def parseNumber (negative : Bool) (cs : List Char) : Except Failure (Json × List Char) :=
  match parseNat cs with
  | none => Except.error Failure.syntaxError
  | some (n, rest) =>
    match rest with
    | [] => Except.ok (Json.num (if negative then -(n : Int) else (n : Int)), [])
    | c :: tl =>
      if continuesNumber c then Except.error Failure.outsideFragment
      else Except.ok (Json.num (if negative then -(n : Int) else (n : Int)), c :: tl)

/-- Consume the given characters, if the text starts with them. -/
def stripPrefix (pre : List Char) (cs : List Char) : Option (List Char) :=
  if pre.isPrefixOf cs then some (cs.drop pre.length) else none

/-- One of the literals `null`, `true`, `false`, after its first character. -/
def parseLiteral (tail : List Char) (value : Json) (cs : List Char) :
    Except Failure (Json × List Char) :=
  match stripPrefix tail cs with
  | some rest => Except.ok (value, rest)
  | none => Except.error Failure.syntaxError

mutual
/-- Parse one JSON value at the head of the text and return it with the rest
of the text.  The first argument bounds the depth of the recursion. -/
def parseValue : Nat → List Char → Except Failure (Json × List Char)
  | 0, _ => Except.error Failure.depthExceeded
  | fuel + 1, cs =>
    match skipWs cs with
    | [] => Except.error Failure.syntaxError
    | c :: rest =>
      if c = '-' then parseNumber true rest
      else if isDigit c then parseNumber false (c :: rest)
      else if c = chQuote then
        match parseString rest false [] with
        | Except.ok (s, rest1) => Except.ok (Json.str s, rest1)
        | Except.error e => Except.error e
      else if c = '[' then
        match skipWs rest with
        | [] => Except.error Failure.syntaxError
        | d :: rest2 =>
          if d = ']' then Except.ok (Json.arr [], rest2)
          else parseElements fuel (d :: rest2) []
      else if c = chLBrace then
        match skipWs rest with
        | [] => Except.error Failure.syntaxError
        | d :: rest2 =>
          if d = chRBrace then Except.ok (Json.obj [], rest2)
          else parseMembers fuel (d :: rest2) []
      else if c = 'n' then parseLiteral ['u', 'l', 'l'] Json.null rest
      else if c = 't' then parseLiteral ['r', 'u', 'e'] (Json.bool true) rest
      else if c = 'f' then parseLiteral ['a', 'l', 's', 'e'] (Json.bool false) rest
      else Except.error Failure.syntaxError
/-- Parse the elements of a non-empty array up to the closing bracket; `acc`
holds the elements read so far, in reverse. -/
def parseElements : Nat → List Char → List Json → Except Failure (Json × List Char)
  | 0, _, _ => Except.error Failure.depthExceeded
  | fuel + 1, cs, acc =>
    match parseValue fuel cs with
    | Except.error e => Except.error e
    | Except.ok (v, rest) =>
      match skipWs rest with
      | [] => Except.error Failure.syntaxError
      | d :: rest2 =>
        if d = ',' then parseElements fuel rest2 (v :: acc)
        else if d = ']' then Except.ok (Json.arr (v :: acc).reverse, rest2)
        else Except.error Failure.syntaxError
/-- Parse the members of a non-empty object up to the closing brace; `acc`
holds the members read so far, in reverse. -/
def parseMembers : Nat → List Char → List (String × Json) → Except Failure (Json × List Char)
  | 0, _, _ => Except.error Failure.depthExceeded
  | fuel + 1, cs, acc =>
    match skipWs cs with
    | [] => Except.error Failure.syntaxError
    | q :: rest =>
      if q = chQuote then
        match parseString rest false [] with
        | Except.error e => Except.error e
        | Except.ok (k, rest1) =>
          match skipWs rest1 with
          | [] => Except.error Failure.syntaxError
          | colon :: rest2 =>
            if colon = ':' then
              match parseValue fuel rest2 with
              | Except.error e => Except.error e
              | Except.ok (v, rest3) =>
                match skipWs rest3 with
                | [] => Except.error Failure.syntaxError
                | d :: rest4 =>
                  if d = ',' then parseMembers fuel rest4 ((k, v) :: acc)
                  else if d = chRBrace then
                    Except.ok (Json.obj ((k, v) :: acc).reverse, rest4)
                  else Except.error Failure.syntaxError
            else Except.error Failure.syntaxError
      else Except.error Failure.syntaxError
end

/-- `JSON.parse(text)`: one value, surrounded by optional white space, and
nothing else.  Every nested value and every further element of an array or
object costs at least one character, so the length of the text bounds the
depth of the recursion. -/
def jsonParse (text : String) : Except Failure Json :=
  match parseValue (text.data.length + 1) text.data with
  | Except.error e => Except.error e
  | Except.ok (v, rest) =>
    match skipWs rest with
    | [] => Except.ok v
    | _ :: _ => Except.error Failure.syntaxError

/-- The text of an integer: decimal digits, preceded by `-` when negative.
This is what `JSON.stringify` writes for a safe integer; for a larger double
JavaScript writes a shorter digit string or an exponent that denotes the same
double, and `JSON.parse` reads it back as that double. -/
def renderInt : Int → List Char
  | Int.ofNat n => Nat.toDigits 10 n
  | Int.negSucc n => '-' :: Nat.toDigits 10 (n + 1)

/-- The text of a property name (the two names of a cart line need no
escaping). -/
def renderKey (key : String) : List Char :=
  [chQuote] ++ key.data ++ [chQuote]

/-- The text of one cart line: its properties in creation order,
`productId` then `quantity`. -/
def renderLine (l : CartLine) : List Char :=
  [chLBrace] ++ renderKey "productId" ++ [':'] ++ renderInt l.productId ++ [',']
    ++ renderKey "quantity" ++ [':'] ++ renderInt l.quantity ++ [chRBrace]

/-- The texts of the lines, separated by commas. -/
def renderLines : List CartLine → List Char
  | [] => []
  | [l] => renderLine l
  | l :: l2 :: ls => renderLine l ++ [','] ++ renderLines (l2 :: ls)

/-- `JSON.stringify(this.items)`. -/
def jsonStringify (items : List CartLine) : String :=
  String.mk (['['] ++ renderLines items ++ [']'])

/-- The JSON value of a cart line. -/
def lineJson (l : CartLine) : Json :=
  Json.obj [("productId", Json.num l.productId), ("quantity", Json.num l.quantity)]

/-- The rest of the text after a number does not continue the number. -/
def NoDigitHead (rest : List Char) : Prop :=
  ∀ c tl, rest = c :: tl → isDigit c = false

/-- The rest of the text after a number ends the number: it starts neither
with a digit nor with a decimal point or an exponent mark. -/
def NumberEnd (rest : List Char) : Prop :=
  ∀ c tl, rest = c :: tl → isDigit c = false ∧ continuesNumber c = false

/-- A JSON value that is a cart line: an object with exactly the properties
`productId` and `quantity`, in this order, both integers. -/
def asLine : Json → Option CartLine
  | Json.obj [(k1, Json.num a), (k2, Json.num b)] =>
    if k1 = "productId" ∧ k2 = "quantity" then some { productId := a, quantity := b } else none
  | _ => none

/-- A list of JSON values that are all cart lines. -/
def asLineList : List Json → Option (List CartLine)
  | [] => some []
  | v :: vs =>
    match asLine v, asLineList vs with
    | some l, some ls => some (l :: ls)
    | _, _ => none

/-- A JSON value that is an array of cart lines. -/
def asLines : Json → Option (List CartLine)
  | Json.arr elems => asLineList elems
  | _ => none


/-! ## The cart -/

/-- An instance of `ShoppingCart` in its page: the fields `items` and
`productCatalog` of the object, the value of the `localStorage` slot
`shoppingCart`, and the numbers of calls of `localStorage.setItem` and of
`updateCartUI` made so far. -/
structure ShoppingCart where
  items : List CartLine
  productCatalog : List Product
  stored : Option String
  setItemCalls : Nat
  renderCalls : Nat
  deriving Repr, DecidableEq

/-- What `loadCart` does. -/
inductive Loaded where
  /-- It leaves a list of cart lines in `this.items`. -/
  | lines (items : List CartLine)
  /-- It leaves in `this.items` some other value that `JSON.parse` returned:
  anything but an array of records made of `productId` and `quantity`, in this
  order, both integers.  The model does not follow such a cart further. -/
  | foreign (value : Json)
  /-- It does not return: `JSON.parse` threw a `SyntaxError`, which nothing
  catches. -/
  | syntaxError
  /-- The stored text is outside the fragment of JSON that is modelled:
  nothing is said of what `loadCart` does. -/
  | unmodelled

/-- Method `loadCart`:
`this.items = savedCart ? JSON.parse(savedCart) : []`, where `savedCart` is
`localStorage.getItem('shoppingCart')`.  An absent value (`null`) and the
empty string are falsy. -/
def loadCart (stored : Option String) : Loaded :=
  match stored with
  | none => Loaded.lines []
  | some savedCart =>
    if savedCart = "" then Loaded.lines []
    else
      match jsonParse savedCart with
      | Except.error Failure.syntaxError => Loaded.syntaxError
      | Except.error Failure.outsideFragment => Loaded.unmodelled
      | Except.error Failure.depthExceeded => Loaded.unmodelled
      | Except.ok v =>
        match asLines v with
        | some items => Loaded.lines items
        | none => Loaded.foreign v

/-- What `new ShoppingCart(productCatalog)` does: the cases of `Loaded`, with
the cart constructed in the first one. -/
inductive Constructed where
  /-- The constructor returns this cart. -/
  | cart (cart : ShoppingCart)
  /-- The constructor returns a cart whose `items` is this value, not a list
  of cart lines. -/
  | foreign (value : Json)
  /-- The constructor does not return: `loadCart` let a `SyntaxError`
  through. -/
  | syntaxError
  /-- The stored text is outside the fragment of JSON that is modelled. -/
  | unmodelled

namespace ShoppingCart

/-- The constructor: `this.items = []`, `this.productCatalog = productCatalog`,
`this.loadCart()`. -/
def new (productCatalog : List Product) (stored : Option String) : Constructed :=
  match loadCart stored with
  | Loaded.lines items =>
    Constructed.cart
      { items := items, productCatalog := productCatalog, stored := stored,
        setItemCalls := 0, renderCalls := 0 }
  | Loaded.foreign value => Constructed.foreign value
  | Loaded.syntaxError => Constructed.syntaxError
  | Loaded.unmodelled => Constructed.unmodelled

/-- Method `saveCart`:
`localStorage.setItem('shoppingCart', JSON.stringify(this.items))`. -/
def saveCart (cart : ShoppingCart) : ShoppingCart :=
  { cart with stored := some (jsonStringify cart.items), setItemCalls := cart.setItemCalls + 1 }

/-- Method `updateCartUI`, as a render signal. -/
def updateCartUI (cart : ShoppingCart) : ShoppingCart :=
  { cart with renderCalls := cart.renderCalls + 1 }

/-- Method `updateCart`: `saveCart` then `updateCartUI`. -/
def updateCart (cart : ShoppingCart) : ShoppingCart :=
  updateCartUI (saveCart cart)

/-- Method `addItem(productId, quantity = 1)`.  A call without a quantity is
`addItem productId 1`. -/
def addItem (cart : ShoppingCart) (productId quantity : Int) : ShoppingCart :=
  match findProduct cart.productCatalog productId with
  | none => cart
  | some product =>
    match findItem cart.items productId with
    | some _ =>
      updateCart
        { cart with
          items := modifyFirst (fun item => decide (item.productId = productId))
            (fun item => { item with quantity := jsAdd item.quantity quantity }) cart.items }
    | none =>
      updateCart
        { cart with
          items := cart.items ++ [{ productId := product.id, quantity := quantity }] }

/-- Method `removeItem(productId)`. -/
def removeItem (cart : ShoppingCart) (productId : Int) : ShoppingCart :=
  updateCart
    { cart with
      items := cart.items.filter (fun item => decide (item.productId ≠ productId)) }

/-- Method `updateQuantity(productId, newQuantity)`. -/
def updateQuantity (cart : ShoppingCart) (productId newQuantity : Int) : ShoppingCart :=
  match findItem cart.items productId with
  | some _ =>
    if 0 < newQuantity then
      updateCart
        { cart with
          items := modifyFirst (fun item => decide (item.productId = productId))
            (fun item => { item with quantity := newQuantity }) cart.items }
    else
      updateCart (removeItem cart productId)
  | none => updateCart cart

/-- Method `calculateTotal`. -/
def calculateTotal (cart : ShoppingCart) : ℚ :=
  cart.items.foldl
    (fun total item =>
      match findProduct cart.productCatalog item.productId with
      | some product => total + product.price * (item.quantity : ℚ)
      | none => total + 0)
    0

/-- Method `clearCart`. -/
def clearCart (cart : ShoppingCart) : ShoppingCart :=
  updateCart { cart with items := [] }

/-- Method `getCartItems`: the lines are mapped to an entry or to `null`, then
the `null`s are filtered out. -/
def getCartItems (cart : ShoppingCart) : List CartItem :=
  (cart.items.map (fun item =>
    match findProduct cart.productCatalog item.productId with
    | some product => some { product := product.toSimpleObject, quantity := item.quantity }
    | none => none)).reduceOption

/-- The number `updateCartUI` writes into the element `cartCount`:
`this.items.reduce((count, item) => count + item.quantity, 0)`. -/
def cartCount (cart : ShoppingCart) : Int :=
  cart.items.foldl (fun count item => jsAdd count item.quantity) 0

/-- Every line of the cart has a quantity of at least one. -/
def QuantitiesPositive (cart : ShoppingCart) : Prop :=
  ∀ l ∈ cart.items, 1 ≤ l.quantity

end ShoppingCart

/-- A call of one of the four mutating methods of the cart. -/
inductive Call where
  | addItem (productId quantity : Int)
  | removeItem (productId : Int)
  | updateQuantity (productId newQuantity : Int)
  | clearCart
  deriving Repr, DecidableEq

/-- The effect of one call. -/
def Call.apply (cart : ShoppingCart) : Call → ShoppingCart
  | Call.addItem productId quantity => cart.addItem productId quantity
  | Call.removeItem productId => cart.removeItem productId
  | Call.updateQuantity productId newQuantity => cart.updateQuantity productId newQuantity
  | Call.clearCart => cart.clearCart

/-- The effect of a sequence of calls, in order. -/
def run (cart : ShoppingCart) (calls : List Call) : ShoppingCart :=
  calls.foldl Call.apply cart

/-- The first two products of the list built in the `DOMContentLoaded`
handler. -/
def menuProducts : List Product :=
  [ Product.new 1 "Pastel de Chocolate" "Relleno de mousse y cobertura de ganache" 35
      (ImagesArg.single "imagenes/tortaChocolate.jpg") "menu",
    Product.new 2 "Cheesecake de Fresa" "Base de galleta y fresas frescas" 40
      (ImagesArg.single "imagenes/Cheesecake de Fresa.webp") "menu" ]

/-- A cart over `menuProducts` with no line, nothing stored and no call made. -/
def emptyMenuCart : ShoppingCart :=
  { items := [], productCatalog := menuProducts, stored := none,
    setItemCalls := 0, renderCalls := 0 }

/-! ## Statements of the specification, in its own words -/

/-- A line resolves when its `productId` is the `id` of a product of the
catalog. -/
def resolves (productCatalog : List Product) (l : CartLine) : Bool :=
  productCatalog.any (fun p => decide (p.id = l.productId))

/-- The total of the specification: the sum of `price * quantity` over the
lines whose product is found in the catalog. -/
def specTotal (productCatalog : List Product) (items : List CartLine) : ℚ :=
  (items.filterMap (fun l =>
    (findProduct productCatalog l.productId).map (fun p => p.price * (l.quantity : ℚ)))).sum

/-- The cart items of the specification: one entry per line whose product is
found, in cart order, with the line's quantity and the reduced copy of the
product holding its first image only. -/
def specCartItems (productCatalog : List Product) (items : List CartLine) : List CartItem :=
  items.filterMap (fun l =>
    (findProduct productCatalog l.productId).map (fun p =>
      { product :=
          { id := p.id, name := p.name, description := p.description, price := p.price,
            image := p.images.head?, category := p.category }
        quantity := l.quantity }))

/-- The item count as the claim on derived views words it: the sum of the
quantities of the lines that resolve. -/
def resolvedCount (productCatalog : List Product) (items : List CartLine) : Int :=
  ((items.filter (resolves productCatalog)).map (fun l => l.quantity)).sum

/-! ## Rounded sums -/

theorem roundNat_of_lt {m : Nat} (h : m < 2 ^ 53) : roundNat m = m := by
  unfold roundNat
  rw [if_pos h]

theorem two_pow_droppedBits_le : ∀ (fuel m : Nat), 1 ≤ m → 2 ^ droppedBits fuel m ≤ m := by
  intro fuel
  induction fuel with
  | zero => intro m h; simpa [droppedBits] using h
  | succ fuel ih =>
    intro m h
    unfold droppedBits
    split
    · simpa using h
    · rename_i hge
      have hm : 2 ≤ m := by
        have : (2 : Nat) ≤ 2 ^ 53 := by norm_num
        omega
      have h2 := ih (m / 2) (by omega)
      rw [pow_succ]
      omega

theorem roundNat_pos {m : Nat} (h : 1 ≤ m) : 1 ≤ roundNat m := by
  unfold roundNat
  split
  · exact h
  · have hle := two_pow_droppedBits_le m m h
    have hpos : 0 < 2 ^ droppedBits m m := Nat.two_pow_pos _
    have hq : 1 ≤ m / 2 ^ droppedBits m m := (Nat.one_le_div_iff hpos).mpr hle
    split
    · exact Nat.one_le_iff_ne_zero.mpr (Nat.mul_ne_zero (by omega) (by omega))
    · exact Nat.one_le_iff_ne_zero.mpr (Nat.mul_ne_zero (by omega) (by omega))

theorem toDouble_of_lt {n : Int} (h : |n| < 2 ^ 53) : toDouble n = n := by
  have hn : n.natAbs < 2 ^ 53 := by
    have : ((n.natAbs : Nat) : Int) < ((2 ^ 53 : Nat) : Int) := by
      rw [Int.natCast_natAbs]
      exact_mod_cast h
    exact_mod_cast this
  unfold toDouble
  rw [roundNat_of_lt hn]
  split
  · omega
  · omega

theorem toDouble_pos {n : Int} (h : 1 ≤ n) : 1 ≤ toDouble n := by
  have hn : 1 ≤ n.natAbs := by omega
  have hr := roundNat_pos hn
  unfold toDouble
  split
  · omega
  · omega

theorem jsAdd_pos {a b : Int} (ha : 1 ≤ a) (hb : 1 ≤ b) : 1 ≤ jsAdd a b :=
  toDouble_pos (by omega)

theorem jsAdd_exact {a b : Int} (h : |a + b| < 2 ^ 53) : jsAdd a b = a + b :=
  toDouble_of_lt h

/-! ## Reading back the text written by `saveCart` -/

theorem digitChar_facts (d : Nat) (h : d < 10) :
    isDigit (Nat.digitChar d) = true ∧ digitValue (Nat.digitChar d) = d ∧
      (d ≠ 0 → Nat.digitChar d ≠ '0') := by
  interval_cases d <;> decide

theorem readDigits_append (pre : List Char) (rest : List Char) (hrest : NoDigitHead rest) :
    ∀ acc, (∀ c ∈ pre, isDigit c = true) →
      readDigits (pre ++ rest) acc = (pre.foldl (fun a c => a * 10 + digitValue c) acc, rest) := by
  induction pre with
  | nil =>
    intro acc _
    cases rest with
    | nil => rfl
    | cons c tl => simp [readDigits, hrest c tl rfl]
  | cons c cs ih =>
    intro acc h
    have hc : isDigit c = true := h c (List.mem_cons_self _ _)
    simp only [List.cons_append, readDigits, hc, if_true, List.foldl_cons]
    exact ih _ (fun x hx => h x (List.mem_cons_of_mem _ hx))

theorem toDigitsCore_spec : ∀ (f n : Nat) (ds : List Char), n < f →
    ∃ c tl, Nat.toDigitsCore 10 f n ds = (c :: tl) ++ ds ∧
      (∀ x ∈ c :: tl, isDigit x = true) ∧
      (c :: tl).foldl (fun a x => a * 10 + digitValue x) 0 = n ∧
      (0 < n → c ≠ '0') := by
  intro f
  induction f with
  | zero => intro n ds h; omega
  | succ f ih =>
    intro n ds h
    have hd := digitChar_facts (n % 10) (Nat.mod_lt _ (by decide))
    simp only [Nat.toDigitsCore]
    by_cases h0 : n / 10 = 0
    · have hn : n % 10 = n := by omega
      refine ⟨Nat.digitChar (n % 10), [], ?_, ?_, ?_, ?_⟩
      · simp [h0]
      · intro x hx
        simp only [List.mem_singleton] at hx
        rw [hx]; exact hd.1
      · simpa [hn] using hd.2.1
      · intro hpos
        exact hd.2.2 (by omega)
    · obtain ⟨c, tl, he, hdig, hval, hhead⟩ := ih (n / 10) (Nat.digitChar (n % 10) :: ds) (by omega)
      refine ⟨c, tl ++ [Nat.digitChar (n % 10)], ?_, ?_, ?_, ?_⟩
      · simp [h0, he]
      · intro x hx
        rw [← List.cons_append, List.mem_append] at hx
        rcases hx with hx | hx
        · exact hdig x hx
        · simp only [List.mem_singleton] at hx
          rw [hx]; exact hd.1
      · rw [← List.cons_append, List.foldl_append, hval]
        simp only [List.foldl_cons, List.foldl_nil, hd.2.1]
        omega
      · intro _
        exact hhead (by omega)

theorem parseNat_toDigits (n : Nat) :
    ∃ c tl, Nat.toDigits 10 n = c :: tl ∧ isDigit c = true ∧
      ∀ rest, NoDigitHead rest → parseNat (c :: tl ++ rest) = some (n, rest) := by
  obtain ⟨c, tl, he, hdig, hval, hhead⟩ := toDigitsCore_spec (n + 1) n [] (Nat.lt_succ_self n)
  refine ⟨c, tl, by simpa [Nat.toDigits] using he, hdig c (List.mem_cons_self _ _), ?_⟩
  intro rest hrest
  by_cases hn : n = 0
  · subst hn
    have h1 : c :: tl = ['0'] := by
      have : Nat.toDigitsCore 10 1 0 [] = ['0'] := rfl
      rw [this] at he
      simpa using he.symm
    injection h1 with hc htl
    subst hc; subst htl
    rfl
  · have hc0 : c ≠ '0' := hhead (Nat.pos_of_ne_zero hn)
    have hcd : isDigit c = true := hdig c (List.mem_cons_self _ _)
    have hr := readDigits_append (c :: tl) rest hrest 0 hdig
    rw [hval] at hr
    simp only [List.cons_append] at hr
    simp only [List.cons_append, parseNat, hc0, if_false, hcd, if_true, hr]

theorem isDigit_head (c : Char) (h : isDigit c = true) :
    isWs c = false ∧ c ≠ '-' := by
  constructor
  · simp only [isDigit, Bool.and_eq_true, decide_eq_true_eq] at h
    simp only [isWs, Bool.or_eq_false_iff, decide_eq_false_iff_not]
    omega
  · intro hc
    subst hc
    revert h
    decide

theorem numberEnd_noDigitHead {rest : List Char} (h : NumberEnd rest) : NoDigitHead rest :=
  fun c tl he => (h c tl he).1

theorem numberEnd_cons (c : Char) (tl : List Char) (h1 : isDigit c = false)
    (h2 : continuesNumber c = false) : NumberEnd (c :: tl) := by
  intro d tl2 he
  injection he with hd _
  rw [← hd]
  exact ⟨h1, h2⟩

theorem parseNumber_toDigits (negative : Bool) (n : Nat) (rest : List Char)
    (hrest : NumberEnd rest) :
    parseNumber negative (Nat.toDigits 10 n ++ rest)
      = Except.ok (Json.num (if negative then -(n : Int) else (n : Int)), rest) := by
  obtain ⟨c, tl, he, _, hp⟩ := parseNat_toDigits n
  have h := hp rest (numberEnd_noDigitHead hrest)
  unfold parseNumber
  rw [he, h]
  cases rest with
  | nil => rfl
  | cons d tl2 =>
    have hd := (hrest d tl2 rfl).2
    simp only [hd, Bool.false_eq_true, if_false]

theorem parseValue_int (f : Nat) (z : Int) (rest : List Char) (hrest : NumberEnd rest) :
    parseValue (f + 1) (renderInt z ++ rest) = Except.ok (Json.num z, rest) := by
  cases z with
  | ofNat n =>
    obtain ⟨c, tl, he, hcd, _⟩ := parseNat_toDigits n
    have hc := isDigit_head c hcd
    have hn := parseNumber_toDigits false n rest hrest
    rw [he] at hn
    simp only [List.cons_append] at hn
    simp only [renderInt, he, parseValue, List.cons_append, skipWs, hc.1, hc.2, hcd, if_true,
      if_false, Bool.false_eq_true, hn]
    rfl
  | negSucc n =>
    have hm : isWs '-' = false := by decide
    have hn := parseNumber_toDigits true (n + 1) rest hrest
    simp only [renderInt, parseValue, List.cons_append, skipWs, hm, if_true, if_false,
      Bool.false_eq_true]
    show parseNumber true (Nat.toDigits 10 (n + 1) ++ rest) = _
    rw [hn]
    simp [Int.negSucc_eq]

theorem parseMembers_comma (f : Nat) (key : String) (keyChars : List Char) (z : Int)
    (rest : List Char) (acc : List (String × Json))
    (hk : ∀ r, parseString (keyChars ++ chQuote :: r) false [] = Except.ok (key, r)) :
    parseMembers (f + 2) ([chQuote] ++ keyChars ++ [chQuote] ++ [':'] ++ renderInt z ++ [','] ++ rest) acc
      = parseMembers (f + 1) rest ((key, Json.num z) :: acc) := by
  have hq : isWs chQuote = false := by decide
  have hcol : isWs ':' = false := by decide
  have hcom : isWs ',' = false := by decide
  have hv := parseValue_int f z (',' :: rest) (numberEnd_cons _ _ (by decide) (by decide))
  have hk2 := hk (':' :: (renderInt z ++ ',' :: rest))
  simp only [List.append_assoc, List.cons_append, List.nil_append, List.singleton_append]
  rw [parseMembers]
  simp only [skipWs, hq, hk2, hcol, hv, hcom, if_true, if_false, Bool.false_eq_true]

theorem parseMembers_close (f : Nat) (key : String) (keyChars : List Char) (z : Int)
    (rest : List Char) (acc : List (String × Json))
    (hk : ∀ r, parseString (keyChars ++ chQuote :: r) false [] = Except.ok (key, r)) :
    parseMembers (f + 2) ([chQuote] ++ keyChars ++ [chQuote] ++ [':'] ++ renderInt z ++ [chRBrace] ++ rest) acc
      = Except.ok (Json.obj ((key, Json.num z) :: acc).reverse, rest) := by
  have hq : isWs chQuote = false := by decide
  have hcol : isWs ':' = false := by decide
  have hcl : isWs chRBrace = false := by decide
  have hne : chRBrace ≠ ',' := by decide
  have hv := parseValue_int f z (chRBrace :: rest) (numberEnd_cons _ _ (by decide) (by decide))
  have hk2 := hk (':' :: (renderInt z ++ chRBrace :: rest))
  simp only [List.append_assoc, List.cons_append, List.nil_append, List.singleton_append]
  rw [parseMembers]
  simp only [skipWs, hq, hk2, hcol, hv, hcl, hne, if_true, if_false, Bool.false_eq_true]

theorem parseString_productId (r : List Char) :
    parseString ("productId".data ++ chQuote :: r) false [] = Except.ok ("productId", r) := by
  rfl

theorem parseString_quantity (r : List Char) :
    parseString ("quantity".data ++ chQuote :: r) false [] = Except.ok ("quantity", r) := by
  rfl

theorem parseValue_line (f : Nat) (l : CartLine) (rest : List Char) :
    parseValue (f + 4) (renderLine l ++ rest) = Except.ok (lineJson l, rest) := by
  have hb : isWs chLBrace = false := by decide
  have hq : isWs chQuote = false := by decide
  have h1 : chLBrace ≠ '-' := by decide
  have h2 : isDigit chLBrace = false := by decide
  have h3 : chLBrace ≠ chQuote := by decide
  have h4 : chLBrace ≠ '[' := by decide
  have h5 : chQuote ≠ chRBrace := by decide
  have e1 := parseMembers_comma (f + 1) "productId" "productId".data l.productId
    (renderKey "quantity" ++ [':'] ++ renderInt l.quantity ++ [chRBrace] ++ rest) []
    parseString_productId
  have e2 := parseMembers_close f "quantity" "quantity".data l.quantity rest
    [("productId", Json.num l.productId)] parseString_quantity
  simp only [renderKey] at e1
  rw [e2] at e1
  simp only [List.append_assoc, List.cons_append, List.nil_append, List.singleton_append] at e1
  simp only [renderLine, renderKey, List.append_assoc, List.cons_append, List.nil_append,
    List.singleton_append]
  rw [parseValue]
  simp only [skipWs, hb, hq, h1, h2, h3, h4, h5, if_true, if_false, Bool.false_eq_true, e1]
  rfl

theorem parseElements_lines : ∀ (ls : List CartLine) (l : CartLine) (acc : List Json) (f : Nat)
    (rest : List Char),
    parseElements (f + ls.length + 5) (renderLines (l :: ls) ++ [']'] ++ rest) acc
      = Except.ok (Json.arr (acc.reverse ++ (l :: ls).map lineJson), rest) := by
  have hws : isWs ']' = false := by decide
  have hwc : isWs ',' = false := by decide
  have hne : (']' : Char) ≠ ',' := by decide
  intro ls
  induction ls with
  | nil =>
    intro l acc f rest
    have hv := parseValue_line f l (']' :: rest)
    simp only [renderLines, List.length_nil, Nat.add_zero, List.append_assoc,
      List.singleton_append]
    rw [parseElements]
    simp only [hv, skipWs, hws, hne, if_true, if_false, Bool.false_eq_true, List.reverse_cons,
      List.map_cons, List.map_nil]
  | cons l2 ls ih =>
    intro l acc f rest
    have hv := parseValue_line (f + ls.length + 1) l (',' :: (renderLines (l2 :: ls) ++ [']'] ++ rest))
    have hi := ih l2 (lineJson l :: acc) f rest
    have hf : f + (l2 :: ls).length + 5 = (f + ls.length + 1 + 4) + 1 := by
      simp only [List.length_cons]; omega
    have hf2 : f + ls.length + 1 + 4 = f + ls.length + 5 := by omega
    rw [hf]
    simp only [renderLines, List.append_assoc, List.singleton_append, List.cons_append,
      List.nil_append] at hv hi ⊢
    rw [parseElements]
    simp only [hv, skipWs, hwc, if_true, if_false, Bool.false_eq_true, hf2, hi,
      List.reverse_cons, List.map_cons, List.append_assoc, List.singleton_append]

theorem renderLines_head (l : CartLine) (ls : List CartLine) :
    ∃ t, renderLines (l :: ls) = chLBrace :: t ∧ ls.length + 3 ≤ t.length := by
  induction ls generalizing l with
  | nil =>
    refine ⟨_, by simp only [renderLines, renderLine, renderKey, List.append_assoc,
      List.singleton_append, List.cons_append, List.nil_append]; rfl, ?_⟩
    simp
  | cons l2 ls ih =>
    obtain ⟨t, ht, hlen⟩ := ih l2
    refine ⟨_, by simp only [renderLines, renderLine, renderKey, List.append_assoc,
      List.singleton_append, List.cons_append, List.nil_append]; rfl, ?_⟩
    simp [ht]
    omega

theorem parseValue_lines (l : CartLine) (ls : List CartLine) (f : Nat) (rest : List Char) :
    parseValue (f + ls.length + 6) (['['] ++ renderLines (l :: ls) ++ [']'] ++ rest)
      = Except.ok (Json.arr ((l :: ls).map lineJson), rest) := by
  obtain ⟨t, ht, _⟩ := renderLines_head l ls
  have he := parseElements_lines ls l [] f rest
  have h1 : isWs '[' = false := by decide
  have h2 : isWs chLBrace = false := by decide
  have h3 : chLBrace ≠ ']' := by decide
  have h4 : ('[' : Char) ≠ '-' := by decide
  have h5 : isDigit '[' = false := by decide
  have h6 : ('[' : Char) ≠ chQuote := by decide
  rw [ht] at he
  simp only [ht, List.singleton_append, List.cons_append, List.append_assoc, List.nil_append,
    List.reverse_nil] at he ⊢
  rw [parseValue]
  simp only [skipWs, h1, h2, h3, h4, h5, h6, if_true, if_false, Bool.false_eq_true, he]

theorem jsonParse_jsonStringify (items : List CartLine) :
    jsonParse (jsonStringify items) = Except.ok (Json.arr (items.map lineJson)) := by
  cases items with
  | nil => rfl
  | cons l ls =>
    obtain ⟨t, ht, hlen⟩ := renderLines_head l ls
    obtain ⟨k, hk⟩ : ∃ k, t.length = k + (ls.length + 3) :=
      ⟨t.length - (ls.length + 3), by omega⟩
    have hfuel : (jsonStringify (l :: ls)).data.length + 1 = (k + 1) + ls.length + 6 := by
      show (['['] ++ renderLines (l :: ls) ++ [']']).length + 1 = (k + 1) + ls.length + 6
      rw [ht]
      simp only [List.singleton_append, List.cons_append, List.length_cons,
        List.length_append, List.length_nil, hk]
      omega
    have hp := parseValue_lines l ls (k + 1) []
    simp only [List.append_nil] at hp
    unfold jsonParse
    rw [hfuel]
    simp only [jsonStringify, hp, skipWs]

theorem asLineList_lineJson (items : List CartLine) :
    asLineList (items.map lineJson) = some items := by
  induction items with
  | nil => rfl
  | cons l ls ih =>
    have h : asLine (lineJson l) = some l := by
      simp [asLine, lineJson]
    simp only [List.map_cons, asLineList, h, ih]

theorem jsonStringify_ne_empty (items : List CartLine) : jsonStringify items ≠ "" := by
  intro h
  have := congrArg String.length h
  simp [jsonStringify, String.length] at this

theorem loadCart_jsonStringify (items : List CartLine) :
    loadCart (some (jsonStringify items)) = Loaded.lines items := by
  simp only [loadCart, jsonStringify_ne_empty, if_false, jsonParse_jsonStringify, asLines,
    asLineList_lineJson]



/-! ## Lookups and in-place updates -/

theorem findProduct_some {productCatalog : List Product} {productId : Int} {p : Product}
    (h : findProduct productCatalog productId = some p) :
    p ∈ productCatalog ∧ p.id = productId := by
  unfold findProduct at h
  exact ⟨List.mem_of_find?_eq_some h, by simpa using List.find?_some h⟩

theorem findProduct_isSome_of_mem {productCatalog : List Product} {productId : Int}
    (h : ∃ p ∈ productCatalog, p.id = productId) :
    ∃ p, findProduct productCatalog productId = some p ∧ p.id = productId := by
  obtain ⟨q, hq, hid⟩ := h
  cases hf : findProduct productCatalog productId with
  | some p => exact ⟨p, rfl, (findProduct_some hf).2⟩
  | none =>
    unfold findProduct at hf
    have := List.find?_eq_none.mp hf q hq
    simp [hid] at this

theorem findProduct_none_of_forall {productCatalog : List Product} {productId : Int}
    (h : ∀ p ∈ productCatalog, p.id ≠ productId) :
    findProduct productCatalog productId = none := by
  unfold findProduct
  rw [List.find?_eq_none]
  intro p hp
  simpa using h p hp

theorem findProduct_isSome_eq_resolves (productCatalog : List Product) (l : CartLine) :
    (findProduct productCatalog l.productId).isSome = resolves productCatalog l := by
  unfold findProduct resolves
  induction productCatalog with
  | nil => rfl
  | cons p ps ih =>
    by_cases h : p.id = l.productId
    · simp [List.find?, h]
    · simp only [List.find?, h, decide_False, List.any_cons, Bool.false_or]
      exact ih

theorem findItem_none_filter {items : List CartLine} {productId : Int}
    (h : findItem items productId = none) :
    items.filter (fun item => decide (item.productId ≠ productId)) = items := by
  unfold findItem at h
  rw [List.find?_eq_none] at h
  rw [List.filter_eq_self]
  intro a ha
  simpa using h a ha

theorem mem_modifyFirst {α : Type} (p : α → Bool) (f : α → α) :
    ∀ (l : List α) (x : α), x ∈ modifyFirst p f l → x ∈ l ∨ ∃ y ∈ l, x = f y := by
  intro l
  induction l with
  | nil => intro x hx; simp [modifyFirst] at hx
  | cons a as ih =>
    intro x hx
    simp only [modifyFirst] at hx
    split at hx
    · rcases List.mem_cons.mp hx with h | h
      · exact Or.inr ⟨a, List.mem_cons_self _ _, h⟩
      · exact Or.inl (List.mem_cons_of_mem _ h)
    · rcases List.mem_cons.mp hx with h | h
      · exact Or.inl (h ▸ List.mem_cons_self _ _)
      · rcases ih x h with h2 | ⟨y, hy, hxy⟩
        · exact Or.inl (List.mem_cons_of_mem _ h2)
        · exact Or.inr ⟨y, List.mem_cons_of_mem _ hy, hxy⟩

theorem modifyFirst_split {α : Type} (p : α → Bool) (f : α → α) :
    ∀ (l : List α), (∃ x ∈ l, p x = true) →
      ∃ pre old post, l = pre ++ old :: post ∧ (∀ x ∈ pre, p x = false) ∧ p old = true ∧
        modifyFirst p f l = pre ++ f old :: post := by
  intro l
  induction l with
  | nil => intro h; obtain ⟨x, hx, _⟩ := h; simp at hx
  | cons a as ih =>
    intro h
    by_cases ha : p a = true
    · exact ⟨[], a, as, rfl, by simp, ha, by simp [modifyFirst, ha]⟩
    · have hex : ∃ x ∈ as, p x = true := by
        obtain ⟨x, hx, hpx⟩ := h
        rcases List.mem_cons.mp hx with h1 | h1
        · rw [h1] at hpx; exact absurd hpx ha
        · exact ⟨x, h1, hpx⟩
      obtain ⟨pre, old, post, hl, hpre, hold, hm⟩ := ih hex
      refine ⟨a :: pre, old, post, by simp [hl], ?_, hold, by simp [modifyFirst, ha, hm]⟩
      intro x hx
      rcases List.mem_cons.mp hx with h1 | h1
      · rw [h1]; simpa using ha
      · exact hpre x h1

theorem findItem_isSome_of_mem {items : List CartLine} {productId : Int}
    (h : ∃ l ∈ items, l.productId = productId) :
    ∃ found, findItem items productId = some found := by
  obtain ⟨l, hl, hid⟩ := h
  cases hf : findItem items productId with
  | some found => exact ⟨found, rfl⟩
  | none =>
    unfold findItem at hf
    have := List.find?_eq_none.mp hf l hl
    simp [hid] at this

namespace ShoppingCart

@[simp] theorem updateCart_items (cart : ShoppingCart) : (updateCart cart).items = cart.items := rfl

@[simp] theorem updateCart_productCatalog (cart : ShoppingCart) :
    (updateCart cart).productCatalog = cart.productCatalog := rfl

@[simp] theorem updateCart_stored (cart : ShoppingCart) :
    (updateCart cart).stored = some (jsonStringify cart.items) := rfl

theorem addItem_productCatalog (cart : ShoppingCart) (productId quantity : Int) :
    (cart.addItem productId quantity).productCatalog = cart.productCatalog := by
  unfold addItem
  split
  · rfl
  · split <;> rfl

theorem removeItem_productCatalog (cart : ShoppingCart) (productId : Int) :
    (cart.removeItem productId).productCatalog = cart.productCatalog := rfl

theorem updateQuantity_productCatalog (cart : ShoppingCart) (productId newQuantity : Int) :
    (cart.updateQuantity productId newQuantity).productCatalog = cart.productCatalog := by
  unfold updateQuantity
  split
  · split <;> rfl
  · rfl

end ShoppingCart


/-! ## Quantities of the lines -/

namespace ShoppingCart

theorem addItem_quantitiesPositive (cart : ShoppingCart) (productId quantity : Int)
    (hq : 1 ≤ quantity) (h : cart.QuantitiesPositive) :
    (cart.addItem productId quantity).QuantitiesPositive := by
  unfold addItem
  split
  · exact h
  · split
    · intro l hl
      simp only [updateCart_items] at hl
      rcases mem_modifyFirst _ _ _ _ hl with h1 | ⟨y, hy, hly⟩
      · exact h l h1
      · rw [hly]
        exact jsAdd_pos (h y hy) hq
    · intro l hl
      simp only [updateCart_items, List.mem_append, List.mem_singleton] at hl
      rcases hl with h1 | h1
      · exact h l h1
      · rw [h1]; exact hq

theorem removeItem_quantitiesPositive (cart : ShoppingCart) (productId : Int)
    (h : cart.QuantitiesPositive) : (cart.removeItem productId).QuantitiesPositive := by
  intro l hl
  simp only [removeItem, updateCart_items] at hl
  exact h l (List.mem_of_mem_filter hl)

theorem updateQuantity_quantitiesPositive (cart : ShoppingCart) (productId newQuantity : Int)
    (h : cart.QuantitiesPositive) :
    (cart.updateQuantity productId newQuantity).QuantitiesPositive := by
  unfold updateQuantity
  split
  · split
    · rename_i hpos
      intro l hl
      simp only [updateCart_items] at hl
      rcases mem_modifyFirst _ _ _ _ hl with h1 | ⟨y, _, hly⟩
      · exact h l h1
      · rw [hly]
        show 1 ≤ newQuantity
        omega
    · intro l hl
      simp only [updateCart_items] at hl
      exact removeItem_quantitiesPositive cart productId h l hl
  · intro l hl
    simp only [updateCart_items] at hl
    exact h l hl

theorem clearCart_quantitiesPositive (cart : ShoppingCart) :
    (cart.clearCart).QuantitiesPositive := by
  intro l hl
  simp [clearCart] at hl

end ShoppingCart

theorem run_quantitiesPositive : ∀ (calls : List Call) (cart : ShoppingCart),
    cart.QuantitiesPositive →
    (∀ productId quantity, Call.addItem productId quantity ∈ calls → 1 ≤ quantity) →
    (run cart calls).QuantitiesPositive := by
  intro calls
  induction calls with
  | nil => intro cart h _; exact h
  | cons call calls ih =>
    intro cart h hadd
    have hrest : ∀ productId quantity, Call.addItem productId quantity ∈ calls → 1 ≤ quantity :=
      fun p q hm => hadd p q (List.mem_cons_of_mem _ hm)
    have hstep : (Call.apply cart call).QuantitiesPositive := by
      cases call with
      | addItem p q =>
        exact ShoppingCart.addItem_quantitiesPositive cart p q
          (hadd p q (List.mem_cons_self _ _)) h
      | removeItem p => exact ShoppingCart.removeItem_quantitiesPositive cart p h
      | updateQuantity p q => exact ShoppingCart.updateQuantity_quantitiesPositive cart p q h
      | clearCart => exact ShoppingCart.clearCart_quantitiesPositive cart
    exact ih (Call.apply cart call) hstep hrest

/-- C1, as stated, fails: from the empty cart over the menu products the
single call `addItem(1, 0)` leaves the line `(1, 0)` in the cart, whose
quantity is below one. -/
theorem addItem_zero_quantity_retained :
    (run emptyMenuCart [Call.addItem 1 0]).items = [{ productId := 1, quantity := 0 }] ∧
      ¬ (∀ l ∈ (run emptyMenuCart [Call.addItem 1 0]).items, 1 ≤ l.quantity) := by
  decide

/-- C1, amended: in every cart state reached from a cart without lines by a
finite sequence of `addItem`, `removeItem`, `updateQuantity` and `clearCart`
calls in which every `addItem` is given a quantity of at least one (the other
arguments being arbitrary integers), every line has a quantity of at least
one. -/
theorem quantity_ge_one_of_positive_adds (cart : ShoppingCart) (hempty : cart.items = [])
    (calls : List Call)
    (hadd : ∀ productId quantity, Call.addItem productId quantity ∈ calls → 1 ≤ quantity) :
    ∀ l ∈ (run cart calls).items, 1 ≤ l.quantity := by
  apply run_quantitiesPositive calls cart _ hadd
  intro l hl
  rw [hempty] at hl
  simp at hl

/-- Witness for C1 as amended: seven calls on the empty cart over the menu
products, every `addItem` with a quantity of at least one. -/
theorem quantity_ge_one_of_positive_adds_witness :
    emptyMenuCart.items = [] ∧
      (∀ productId quantity,
        Call.addItem productId quantity ∈
          [Call.addItem 1 2, Call.updateQuantity 1 (-3), Call.addItem 2 1, Call.addItem 2 4,
            Call.removeItem 7, Call.updateQuantity 2 0, Call.addItem 1 1] → 1 ≤ quantity) ∧
      ∀ l ∈ (run emptyMenuCart
          [Call.addItem 1 2, Call.updateQuantity 1 (-3), Call.addItem 2 1, Call.addItem 2 4,
            Call.removeItem 7, Call.updateQuantity 2 0, Call.addItem 1 1]).items,
        1 ≤ l.quantity := by
  have hadd : ∀ productId quantity,
      Call.addItem productId quantity ∈
        [Call.addItem 1 2, Call.updateQuantity 1 (-3), Call.addItem 2 1, Call.addItem 2 4,
          Call.removeItem 7, Call.updateQuantity 2 0, Call.addItem 1 1] → 1 ≤ quantity := by
    intro productId quantity h
    simp at h
    omega
  exact ⟨rfl, hadd, quantity_ge_one_of_positive_adds emptyMenuCart rfl _ hadd⟩

/-! ## Adding -/

/-- C2: when `productId` is the `id` of no product of the catalog,
`addItem(productId, n)` returns without any effect: the lines, the stored
value, the number of storage writes and the number of render signals are
those of the cart before the call. -/
theorem addItem_unknown_product_noop (cart : ShoppingCart) (productId n : Int)
    (h : ∀ p ∈ cart.productCatalog, p.id ≠ productId) :
    cart.addItem productId n = cart ∧
      (cart.addItem productId n).items = cart.items ∧
      (cart.addItem productId n).stored = cart.stored ∧
      (cart.addItem productId n).setItemCalls = cart.setItemCalls ∧
      (cart.addItem productId n).renderCalls = cart.renderCalls := by
  have he : cart.addItem productId n = cart := by
    unfold ShoppingCart.addItem
    rw [findProduct_none_of_forall h]
  rw [he]
  exact ⟨rfl, rfl, rfl, rfl, rfl⟩

/-- Witness for C2: `addItem(999, 1)` on the empty cart over the menu products. -/
theorem addItem_unknown_product_noop_witness :
    (∀ p ∈ emptyMenuCart.productCatalog, p.id ≠ 999) ∧
      emptyMenuCart.addItem 999 1 = emptyMenuCart :=
  ⟨by decide, (addItem_unknown_product_noop emptyMenuCart 999 1 (by decide)).1⟩

theorem addItem_on_single (cart : ShoppingCart) (productId a q : Int)
    (hcat : ∃ p ∈ cart.productCatalog, p.id = productId)
    (hitems : cart.items = [{ productId := productId, quantity := a }]) :
    (cart.addItem productId q).items = [{ productId := productId, quantity := jsAdd a q }] := by
  obtain ⟨p, hp, _⟩ := findProduct_isSome_of_mem hcat
  unfold ShoppingCart.addItem
  rw [hp]
  simp [hitems, findItem, modifyFirst]

theorem addItem_fold_single : ∀ (qs : List Int) (cart : ShoppingCart) (productId a : Int),
    (∃ p ∈ cart.productCatalog, p.id = productId) →
    cart.items = [{ productId := productId, quantity := a }] →
    (∀ pre, pre <+: qs → |a + pre.sum| < 2 ^ 53) →
    (qs.foldl (fun c q => ShoppingCart.addItem c productId q) cart).items
      = [{ productId := productId, quantity := a + qs.sum }] := by
  intro qs
  induction qs with
  | nil => intro cart productId a _ h _; simpa using h
  | cons q qs ih =>
    intro cart productId a hcat hitems hsafe
    have hq : |a + q| < 2 ^ 53 := by
      have := hsafe [q] (by simp)
      simpa using this
    have h1 := addItem_on_single cart productId a q hcat hitems
    rw [jsAdd_exact hq] at h1
    have hcat2 : ∃ p ∈ (cart.addItem productId q).productCatalog, p.id = productId := by
      rw [ShoppingCart.addItem_productCatalog]; exact hcat
    have hsafe2 : ∀ pre, pre <+: qs → |a + q + pre.sum| < 2 ^ 53 := by
      intro pre hpre
      have := hsafe (q :: pre) ((List.prefix_cons_inj q).mpr hpre)
      simpa [add_assoc] using this
    have := ih (cart.addItem productId q) productId (a + q) hcat2 h1 hsafe2
    simp only [List.foldl_cons, List.sum_cons]
    rw [this, add_assoc]

/-- C3, as stated, fails: over the menu products, `addItem(1, 2^53)` then
`addItem(1, 1)` from the empty cart leave the single line for product 1 with
the quantity `2^53 = 9007199254740992`, the double nearest to the sum, and
not the sum `9007199254740993`. -/
theorem addItem_sum_rounded :
    (([9007199254740992, 1] : List Int).foldl
        (fun c q => ShoppingCart.addItem c 1 q) emptyMenuCart).items
      = [{ productId := 1, quantity := 9007199254740992 }] ∧
    ([9007199254740992, 1] : List Int).sum = 9007199254740993 ∧
    (([9007199254740992, 1] : List Int).foldl
        (fun c q => ShoppingCart.addItem c 1 q) emptyMenuCart).items
      ≠ [{ productId := 1, quantity := ([9007199254740992, 1] : List Int).sum }] := by
  decide

/-- C3, amended: starting from a cart without lines, and for a `productId` of
the catalog, the calls `addItem(productId, q1)`, ..., `addItem(productId, qk)`
(`k >= 1`) whose partial sums `q1 + ... + qi` all stay within the safe
integers (magnitude below `2^53`) leave exactly one line, for that
`productId`, and its quantity is `q1 + ... + qk`. -/
theorem addItem_repeated_sums (cart : ShoppingCart) (hempty : cart.items = [])
    (productId : Int) (hcat : ∃ p ∈ cart.productCatalog, p.id = productId)
    (qs : List Int) (hqs : qs ≠ [])
    (hsafe : ∀ pre, pre <+: qs → |pre.sum| < 2 ^ 53) :
    (qs.foldl (fun c q => ShoppingCart.addItem c productId q) cart).items
      = [{ productId := productId, quantity := qs.sum }] := by
  cases qs with
  | nil => exact absurd rfl hqs
  | cons q qs =>
    obtain ⟨p, hp, hid⟩ := findProduct_isSome_of_mem hcat
    have h1 : (cart.addItem productId q).items = [{ productId := productId, quantity := q }] := by
      unfold ShoppingCart.addItem
      rw [hp]
      simp [hempty, findItem, hid]
    have hcat2 : ∃ p ∈ (cart.addItem productId q).productCatalog, p.id = productId := by
      rw [ShoppingCart.addItem_productCatalog]; exact hcat
    have hsafe2 : ∀ pre, pre <+: qs → |q + pre.sum| < 2 ^ 53 := by
      intro pre hpre
      have := hsafe (q :: pre) ((List.prefix_cons_inj q).mpr hpre)
      simpa using this
    have := addItem_fold_single qs (cart.addItem productId q) productId q hcat2 h1 hsafe2
    simp only [List.foldl_cons, List.sum_cons]
    exact this

/-- Witness for C3 as amended: the quantities 3, -1 and 4 added for
product 2. -/
theorem addItem_repeated_sums_witness :
    emptyMenuCart.items = [] ∧ (∃ p ∈ emptyMenuCart.productCatalog, p.id = 2) ∧
      ([3, -1, 4] : List Int) ≠ [] ∧
      (∀ pre, pre <+: ([3, -1, 4] : List Int) → |pre.sum| < 2 ^ 53) ∧
      (([3, -1, 4] : List Int).foldl (fun c q => ShoppingCart.addItem c 2 q) emptyMenuCart).items
        = [{ productId := 2, quantity := ([3, -1, 4] : List Int).sum }] := by
  have hsafe : ∀ pre, pre <+: ([3, -1, 4] : List Int) → |pre.sum| < 2 ^ 53 := by
    intro pre hpre
    have hmem : pre ∈ ([3, -1, 4] : List Int).inits := (List.mem_inits _ _).mpr hpre
    simp [List.inits] at hmem
    rcases hmem with h | h | h | h <;> subst h <;> norm_num
  exact ⟨rfl, by decide, by decide, hsafe,
    addItem_repeated_sums emptyMenuCart rfl 2 (by decide) [3, -1, 4] (by decide) hsafe⟩

/-! ## Derived views -/

theorem foldl_total (productCatalog : List Product) : ∀ (items : List CartLine) (acc : ℚ),
    items.foldl
      (fun total item =>
        match findProduct productCatalog item.productId with
        | some product => total + product.price * (item.quantity : ℚ)
        | none => total + 0)
      acc = acc + specTotal productCatalog items := by
  intro items
  induction items with
  | nil => intro acc; simp [specTotal]
  | cons l ls ih =>
    intro acc
    rw [List.foldl_cons, ih]
    cases h : findProduct productCatalog l.productId with
    | none =>
      simp only [specTotal, List.filterMap_cons, h, Option.map_none', add_zero]
    | some p =>
      simp only [specTotal, List.filterMap_cons, h, Option.map_some', List.sum_cons]
      rw [add_assoc]

theorem specTotal_filter (productCatalog : List Product) : ∀ (items : List CartLine),
    specTotal productCatalog (items.filter (resolves productCatalog))
      = specTotal productCatalog items := by
  intro items
  induction items with
  | nil => rfl
  | cons l ls ih =>
    have hr := findProduct_isSome_eq_resolves productCatalog l
    cases h : findProduct productCatalog l.productId with
    | none =>
      rw [h] at hr
      have hr2 : resolves productCatalog l = false := by simpa using hr.symm
      simp only [List.filter_cons, hr2, Bool.false_eq_true, if_false]
      rw [ih]
      simp only [specTotal, List.filterMap_cons, h, Option.map_none']
    | some p =>
      rw [h] at hr
      have hr2 : resolves productCatalog l = true := by simpa using hr.symm
      simp only [List.filter_cons, hr2, if_true]
      simp only [specTotal, List.filterMap_cons, h, Option.map_some', List.sum_cons] at ih ⊢
      rw [ih]

/-- C4: `calculateTotal()` is the sum, over the lines whose `productId` is
found in the catalog, of the price of the product found times the quantity
of the line, prices being rationals; the lines whose `productId` is not found
contribute nothing (the total is that of the cart restricted to the lines
that resolve), and the total of a cart without lines is 0. -/
theorem calculateTotal_eq_sum_resolved (cart : ShoppingCart) :
    cart.calculateTotal = specTotal cart.productCatalog cart.items ∧
      cart.calculateTotal
        = ShoppingCart.calculateTotal
            { cart with items := cart.items.filter (resolves cart.productCatalog) } ∧
      ShoppingCart.calculateTotal { cart with items := [] } = 0 := by
  have h : ∀ c : ShoppingCart, c.calculateTotal = specTotal c.productCatalog c.items := by
    intro c
    unfold ShoppingCart.calculateTotal
    rw [foldl_total, zero_add]
  refine ⟨h cart, ?_, ?_⟩
  · rw [h cart, h]
    exact (specTotal_filter cart.productCatalog cart.items).symm
  · rw [h]
    rfl

theorem getCartItems_eq_spec (cart : ShoppingCart) :
    cart.getCartItems = specCartItems cart.productCatalog cart.items := by
  unfold ShoppingCart.getCartItems specCartItems
  rw [List.reduceOption, List.filterMap_map]
  congr 1
  funext l
  simp only [Function.comp_apply, id_eq]
  cases h : findProduct cart.productCatalog l.productId with
  | none => rfl
  | some p => rfl

theorem specCartItems_quantities (productCatalog : List Product) : ∀ (items : List CartLine),
    (specCartItems productCatalog items).map (fun e => e.quantity)
      = (items.filter (resolves productCatalog)).map (fun l => l.quantity) := by
  intro items
  induction items with
  | nil => rfl
  | cons l ls ih =>
    have hr := findProduct_isSome_eq_resolves productCatalog l
    unfold specCartItems at ih ⊢
    cases h : findProduct productCatalog l.productId with
    | none =>
      rw [h] at hr
      have hr2 : resolves productCatalog l = false := by simpa using hr.symm
      simp only [List.filterMap_cons, h, Option.map_none', List.filter_cons, hr2,
        Bool.false_eq_true, if_false]
      exact ih
    | some p =>
      rw [h] at hr
      have hr2 : resolves productCatalog l = true := by simpa using hr.symm
      simp only [List.filterMap_cons, h, Option.map_some', List.filter_cons, hr2, if_true,
        List.map_cons]
      rw [ih]

/-- C9: `getCartItems()` returns, in cart order, one entry for each line whose
`productId` is found in the catalog and none for the other lines (the
quantities of the entries are those of the lines that resolve, in order);
each entry holds the quantity of its line and a copy of the product found made
of its id, name, description, price, category and the first element of its
image list. -/
theorem getCartItems_resolved_snapshots (cart : ShoppingCart) :
    cart.getCartItems = specCartItems cart.productCatalog cart.items ∧
      cart.getCartItems.map (fun e => e.quantity)
        = (cart.items.filter (resolves cart.productCatalog)).map (fun l => l.quantity) ∧
      cart.getCartItems.length = (cart.items.filter (resolves cart.productCatalog)).length := by
  have hq := specCartItems_quantities cart.productCatalog cart.items
  refine ⟨getCartItems_eq_spec cart, ?_, ?_⟩
  · rw [getCartItems_eq_spec]; exact hq
  · rw [getCartItems_eq_spec]
    simpa using congrArg List.length hq

/-- C10, where the code departs from the claim: a cart constructed over the
menu products from the stored text of the single line `(999, 1)`, which no
product matches, holds that line; `getCartItems()` is empty, yet the item
count written by `updateCartUI` is 1, while the quantities of the lines that
resolve sum to 0. -/
theorem cartCount_counts_unresolved :
    ShoppingCart.new menuProducts (some (jsonStringify [{ productId := 999, quantity := 1 }]))
        = Constructed.cart
            { emptyMenuCart with
              items := [{ productId := 999, quantity := 1 }]
              stored := some (jsonStringify [{ productId := 999, quantity := 1 }]) } ∧
      ShoppingCart.cartCount
        { emptyMenuCart with
          items := [{ productId := 999, quantity := 1 }]
          stored := some (jsonStringify [{ productId := 999, quantity := 1 }]) } = 1 ∧
      resolvedCount menuProducts [{ productId := 999, quantity := 1 }] = 0 ∧
      ShoppingCart.cartCount
        { emptyMenuCart with
          items := [{ productId := 999, quantity := 1 }]
          stored := some (jsonStringify [{ productId := 999, quantity := 1 }]) }
        ≠ resolvedCount menuProducts [{ productId := 999, quantity := 1 }] ∧
      ShoppingCart.getCartItems
        { emptyMenuCart with
          items := [{ productId := 999, quantity := 1 }]
          stored := some (jsonStringify [{ productId := 999, quantity := 1 }]) } = [] ∧
      ShoppingCart.calculateTotal
        { emptyMenuCart with
          items := [{ productId := 999, quantity := 1 }]
          stored := some (jsonStringify [{ productId := 999, quantity := 1 }]) } = 0 := by
  refine ⟨?_, ?_, ?_, ?_, ?_, ?_⟩
  · rfl
  · decide
  · decide
  · decide
  · decide
  · simp [ShoppingCart.calculateTotal, findProduct, emptyMenuCart, menuProducts, Product.new]

/-! ## Persistence -/

/-- C5, as stated, fails: the stored text made of a single opening brace is
not JSON; `JSON.parse` throws on it, `loadCart` lets the error through and the
constructor yields no cart, instead of a cart without lines. -/
theorem loadCart_malformed_throws :
    jsonParse "\x7b" = Except.error Failure.syntaxError ∧
      loadCart (some "\x7b") = Loaded.syntaxError ∧
      loadCart (some "\x7b") ≠ Loaded.lines [] ∧
      ShoppingCart.new menuProducts (some "\x7b") = Constructed.syntaxError := by
  refine ⟨rfl, rfl, ?_, rfl⟩
  intro h
  have h2 : loadCart (some "\x7b") = Loaded.syntaxError := rfl
  rw [h2] at h
  cases h

/-- C5, amended: when the stored value is absent or is the empty string,
`loadCart` does not fail and yields an empty line sequence, and the
constructor yields a cart without lines. -/
theorem loadCart_absent_or_empty (productCatalog : List Product) (stored : Option String)
    (h : stored = none ∨ stored = some "") :
    loadCart stored = Loaded.lines [] ∧
      ShoppingCart.new productCatalog stored
        = Constructed.cart
            { items := [], productCatalog := productCatalog, stored := stored,
              setItemCalls := 0, renderCalls := 0 } := by
  rcases h with h | h <;> subst h <;> exact ⟨rfl, rfl⟩

/-- Witness for C5 as amended: an absent stored value. -/
theorem loadCart_absent_or_empty_witness :
    ((none : Option String) = none ∨ (none : Option String) = some "") ∧
      loadCart none = Loaded.lines [] :=
  ⟨Or.inl rfl, (loadCart_absent_or_empty menuProducts none (Or.inl rfl)).1⟩

/-- C6: for every line sequence, the value that `saveCart` stores is read
back by `loadCart` as the same line sequence, the same `productId`/`quantity`
pairs in the same order; a cart constructed on the stored value holds exactly
these lines. -/
theorem loadCart_saveCart_roundtrip (cart : ShoppingCart) (productCatalog : List Product) :
    loadCart (cart.saveCart).stored = Loaded.lines cart.items ∧
      ShoppingCart.new productCatalog (cart.saveCart).stored
        = Constructed.cart
            { items := cart.items, productCatalog := productCatalog,
              stored := (cart.saveCart).stored, setItemCalls := 0, renderCalls := 0 } := by
  have h : loadCart (cart.saveCart).stored = Loaded.lines cart.items :=
    loadCart_jsonStringify cart.items
  refine ⟨h, ?_⟩
  unfold ShoppingCart.new
  rw [h]

/-! ## Updating and removing -/

/-- C7: for `q <= 0`, `updateQuantity(productId, q)` and `removeItem(productId)`
applied to the same cart leave the same line sequence and the same stored
value. -/
theorem updateQuantity_nonpos_eq_removeItem (cart : ShoppingCart) (productId q : Int)
    (hq : q ≤ 0) :
    (cart.updateQuantity productId q).items = (cart.removeItem productId).items ∧
      (cart.updateQuantity productId q).stored = (cart.removeItem productId).stored := by
  have hnot : ¬ 0 < q := by omega
  unfold ShoppingCart.updateQuantity
  cases hf : findItem cart.items productId with
  | some found =>
    simp only [hnot, if_false]
    exact ⟨rfl, rfl⟩
  | none =>
    have hfilter := findItem_none_filter hf
    simp only [ShoppingCart.removeItem, ShoppingCart.updateCart_items,
      ShoppingCart.updateCart_stored, hfilter]
    exact ⟨trivial, trivial⟩

/-- Witness for C7: `updateQuantity(1, 0)` against `removeItem(1)` on a cart
with one line for each menu product. -/
theorem updateQuantity_nonpos_eq_removeItem_witness :
    (0 : Int) ≤ 0 ∧
      ((run emptyMenuCart [Call.addItem 1 2, Call.addItem 2 1]).updateQuantity 1 0).items
        = ((run emptyMenuCart [Call.addItem 1 2, Call.addItem 2 1]).removeItem 1).items ∧
      ((run emptyMenuCart [Call.addItem 1 2, Call.addItem 2 1]).updateQuantity 1 0).stored
        = ((run emptyMenuCart [Call.addItem 1 2, Call.addItem 2 1]).removeItem 1).stored :=
  ⟨le_refl 0,
    updateQuantity_nonpos_eq_removeItem (run emptyMenuCart [Call.addItem 1 2, Call.addItem 2 1])
      1 0 (le_refl 0)⟩


/-- C8: when the cart holds a line for `productId` and `q > 0`,
`updateQuantity(productId, q)` replaces the quantity of the first such line by
`q` and changes no other line: the lines before and after it are kept as they
are, so the sequence has the same length and the same `productId` at every
position.  On the catalog with products 1 (price 35) and 2 (price 40), the
calls `addItem(1,2)`, `addItem(2,1)`, `updateQuantity(1,5)` give the lines
`(1,5)`, `(2,1)` and the total 215. -/
theorem updateQuantity_pos_sets_line (cart : ShoppingCart) (productId q : Int) (hq : 0 < q)
    (hmem : ∃ l ∈ cart.items, l.productId = productId) :
    (∃ pre old post, cart.items = pre ++ old :: post ∧
        (∀ x ∈ pre, x.productId ≠ productId) ∧ old.productId = productId ∧
        (cart.updateQuantity productId q).items
          = pre ++ { productId := productId, quantity := q } :: post) ∧
      (cart.updateQuantity productId q).items.length = cart.items.length ∧
      (cart.updateQuantity productId q).items.map (fun l => l.productId)
        = cart.items.map (fun l => l.productId) ∧
      (run emptyMenuCart [Call.addItem 1 2, Call.addItem 2 1, Call.updateQuantity 1 5]).items
        = [{ productId := 1, quantity := 5 }, { productId := 2, quantity := 1 }] ∧
      (run emptyMenuCart
        [Call.addItem 1 2, Call.addItem 2 1, Call.updateQuantity 1 5]).calculateTotal = 215 := by
  obtain ⟨found, hfound⟩ := findItem_isSome_of_mem hmem
  have hex : ∃ x ∈ cart.items, (fun item : CartLine => decide (item.productId = productId)) x
      = true := by
    obtain ⟨l, hl, hid⟩ := hmem
    exact ⟨l, hl, by simpa using hid⟩
  obtain ⟨pre, old, post, hsplit, hpre, hold, hmod⟩ :=
    modifyFirst_split (fun item : CartLine => decide (item.productId = productId))
      (fun item => { item with quantity := q }) cart.items hex
  have hold2 : old.productId = productId := by simpa using hold
  have hitems : (cart.updateQuantity productId q).items
      = pre ++ { productId := productId, quantity := q } :: post := by
    unfold ShoppingCart.updateQuantity
    rw [hfound]
    simp only [hq, if_true, ShoppingCart.updateCart_items, hmod, hold2]
  refine ⟨⟨pre, old, post, hsplit, ?_, hold2, hitems⟩, ?_, ?_, ?_, ?_⟩
  · intro x hx
    simpa using hpre x hx
  · rw [hitems, hsplit]
    simp
  · rw [hitems, hsplit]
    simp [hold2]
  · decide
  · have h : (run emptyMenuCart
        [Call.addItem 1 2, Call.addItem 2 1, Call.updateQuantity 1 5]).items
        = [{ productId := 1, quantity := 5 }, { productId := 2, quantity := 1 }] := by decide
    have hc : (run emptyMenuCart
        [Call.addItem 1 2, Call.addItem 2 1, Call.updateQuantity 1 5]).productCatalog
        = menuProducts := by decide
    unfold ShoppingCart.calculateTotal
    rw [h, hc]
    simp [findProduct, menuProducts, Product.new]
    norm_num

/-- Witness for C8: `updateQuantity(1, 5)` on a cart with one line for each menu
product. -/
theorem updateQuantity_pos_sets_line_witness :
    (0 : Int) < 5 ∧
      (∃ l ∈ (run emptyMenuCart [Call.addItem 1 2, Call.addItem 2 1]).items, l.productId = 1) ∧
      ((run emptyMenuCart [Call.addItem 1 2, Call.addItem 2 1]).updateQuantity 1 5).items.length
        = (run emptyMenuCart [Call.addItem 1 2, Call.addItem 2 1]).items.length :=
  ⟨by decide, by decide,
    (updateQuantity_pos_sets_line (run emptyMenuCart [Call.addItem 1 2, Call.addItem 2 1]) 1 5
      (by decide) (by decide)).2.1⟩

end Compras
